import Mathlib

/-!
Verification of the `onceinit` crate (`src/lib.rs`): a write-once cell
`OnceInit<T>` holding an atomic three-valued `state` (an `AtomicUsize` taking
the values `UNINITIALIZED = 0`, `INITIALIZING = 1`, `INITIALIZED = 2`) and a
slot `data : UnsafeCell<Option<&'static T>>`.

The embedding has two layers:

* a sequential layer: each public operation is translated as a pure
  state-passing function on `OnceInit T`.  Branches in which the source spins
  on the atomic state (which, with no other thread to change the state, never
  return) are marked with a distinguished `spins` outcome, and the
  `unwrap_unchecked` of an empty slot (undefined behaviour) with `undef`;
* a concurrent layer: a small-step interleaving relation `Step` describing
  any number of threads simultaneously executing `init_internal` on one
  shared cell, at the granularity of the individual atomic accesses of the
  source (the compare-exchange, the slot write, the publishing store, and the
  spin-loop exit).  All atomics in the source use `SeqCst`/`Acquire`
  orderings, so a sequentially-consistent interleaving semantics is the
  appropriate abstraction.
-/

/-- The state constant `UNINITIALIZED: usize = 0` of the source. -/
def UNINITIALIZED : Nat := 0

/-- The state constant `INITIALIZING: usize = 1` of the source. -/
def INITIALIZING : Nat := 1

/-- The state constant `INITIALIZED: usize = 2` of the source. -/
def INITIALIZED : Nat := 2

/-- The error enum `OnceInitError` of the source. -/
inductive OnceInitError where
  | DataUninitialized
  | DataInitialized
deriving DecidableEq, Repr

/-- The public state enum `OnceInitState` of the source; it has only the two
variants `UNINITIALIZED` and `INITIALIZED` — the transient internal value
`INITIALIZING` has no public counterpart. -/
inductive OnceInitState where
  | UNINITIALIZED
  | INITIALIZED
deriving DecidableEq, Repr

/-- The cell `OnceInit<T>`: the atomic `state` word is modelled as a `Nat`
(values `0`, `1`, `2` as in the source constants) and the slot
`UnsafeCell<Option<&'static T>>` as an `Option T` (a `'static` reference is
modelled by the value it points to). -/
structure OnceInit (T : Type) where
  state : Nat
  data : Option T
deriving DecidableEq, Repr

/-- The associated constant `OnceInit::DEFAULT`: state `UNINITIALIZED`,
empty slot. -/
def OnceInit.DEFAULT (T : Type) : OnceInit T :=
  { state := UNINITIALIZED, data := none }

/-- `OnceInit::uninit()`: returns `Self::DEFAULT`. -/
def OnceInit.uninit (T : Type) : OnceInit T :=
  OnceInit.DEFAULT T

/-- `OnceInit::new(data)`: a cell that is already initialized, state
`INITIALIZED` and slot `Some(data)`. -/
def OnceInit.new {T : Type} (data : T) : OnceInit T :=
  { state := INITIALIZED, data := some data }

/-- Outcome of a read operation in the sequential layer.  `ok` is a normal
return, `err` an `Err(OnceInitError)` return, `undef` marks
`Option::unwrap_unchecked` applied to `None` (undefined behaviour in the
source), and `spins` marks entry into the source's spin loop, which with no
concurrent writer never terminates (the concurrent layer below gives the
loop its terminating semantics). -/
inductive GetOutcome (T : Type) where
  | ok (val : T)
  | err (e : OnceInitError)
  | undef
  | spins
deriving DecidableEq, Repr

/-- `OnceInit::get`, translated arm by arm from the source `match` on
`self.state.load(Acquire)`; the second component is the cell after the call
(the source performs no store in `get`, so each arm returns the cell
unchanged).

- state `INITIALIZED` (2): `Ok(unsafe { (*self.data.get()).unwrap_unchecked() })`;
- state `INITIALIZING` (1): spin until the state leaves `INITIALIZING`, then
  unwrap the slot — sequentially the loop never exits, hence `spins`;
- any other value (the `_` arm, in particular `UNINITIALIZED`):
  `Err(OnceInitError::DataUninitialized)`. -/
def OnceInit.get {T : Type} (c : OnceInit T) : GetOutcome T × OnceInit T :=
  match c.state with
  | 2 =>
    (match c.data with
     | some d => GetOutcome.ok d
     | none => GetOutcome.undef, c)
  | 1 => (GetOutcome.spins, c)
  | _ => (GetOutcome.err OnceInitError.DataUninitialized, c)

/-- `OnceInit::get_or_default`, requiring `T: StaticDefault`.  The trait
method `<T as StaticDefault>::static_default()` is modelled by the explicit
function argument `sd : Unit → T`.  Source:
`self.get().unwrap_or_else(|_| T::static_default())` — an `Err` from `get`
is replaced by a fresh invocation of the fallback, an `Ok` value is passed
through, and no write to the cell is performed. -/
def OnceInit.getOrDefault {T : Type} (c : OnceInit T) (sd : Unit → T) :
    GetOutcome T × OnceInit T :=
  let r := OnceInit.get c
  (match r.1 with
   | GetOutcome.err _ => GetOutcome.ok (sd ())
   | o => o, r.2)

/-- `OnceInit::get_unchecked`:
`unsafe { (*self.data.get()).unwrap_unchecked() }`.  The result `some d`
models a normal return of the stored reference `d`; `none` models the
undefined behaviour of unwrapping an empty slot. -/
def OnceInit.getUnchecked {T : Type} (c : OnceInit T) : Option T :=
  c.data

/-- Outcome of the `state()` query in the sequential layer; `reports s` is a
normal return of `s`, `spins` marks the non-terminating (sequentially)
spin loop, and `unreachableHit` marks the `unreachable!()` arm. -/
inductive StateQueryOutcome where
  | reports (s : OnceInitState)
  | spins
  | unreachableHit
deriving DecidableEq, Repr

/-- `OnceInit::state`, translated arm by arm from the source `match` on
`self.state.load(Acquire)` (named `stateQuery` because the Lean field
`OnceInit.state` already carries the source's field name):

- `UNINITIALIZED` (0): returns `OnceInitState::UNINITIALIZED`;
- `INITIALIZING` (1): spin while the load yields `INITIALIZING` —
  sequentially the loop never exits, hence `spins` (see
  `stateQueryObserved` for what the source returns once the loop exits);
- `INITIALIZED` (2): returns `OnceInitState::INITIALIZED`;
- any other value: `unreachable!()`.

No arm stores to the cell, so the cell is returned unchanged. -/
def OnceInit.stateQuery {T : Type} (c : OnceInit T) :
    StateQueryOutcome × OnceInit T :=
  (match c.state with
   | 0 => StateQueryOutcome.reports OnceInitState.UNINITIALIZED
   | 1 => StateQueryOutcome.spins
   | 2 => StateQueryOutcome.reports OnceInitState.INITIALIZED
   | _ => StateQueryOutcome.unreachableHit, c)

/-- `OnceInit::state` as a function of the atomic values it observes: `s0`
is the value of the first `load(Acquire)`, and `s1` is the state value
observed when (and if) the spin loop of the `INITIALIZING` arm exits, i.e.
the first subsequently loaded value different from `INITIALIZING`.  Result
`none` models the `unreachable!()` arm.  Note that in the `INITIALIZING`
arm the source returns `OnceInitState::UNINITIALIZED` after the loop,
ignoring the post-spin value `s1` entirely. -/
def stateQueryObserved (s0 : Nat) (s1 : Nat) : Option OnceInitState :=
  match s0 with
  | 0 => some OnceInitState.UNINITIALIZED
  | 1 =>
    -- spin loop: wait until a load yields a value ≠ INITIALIZING (that
    -- value is s1), then return UNINITIALIZED — s1 is not consulted.
    some OnceInitState.UNINITIALIZED
  | 2 => some OnceInitState.INITIALIZED
  | _ => none

/-- Outcome of `init_internal` in the sequential layer: `ok c` is a
successful `Ok(())` return leaving the cell as `c`; `err e c` is an
`Err(e)` return leaving the cell as `c`; `spins` marks the losing
contender's spin loop (the compare-exchange observed `INITIALIZING`), which
sequentially never exits. -/
inductive InitOutcome (T : Type) where
  | ok (c : OnceInit T)
  | err (e : OnceInitError) (c : OnceInit T)
  | spins
deriving DecidableEq, Repr

/-- `OnceInit::init_internal`, translated from the source.  The
compare-exchange `state.compare_exchange(UNINITIALIZED, INITIALIZING, ...)`
yields the prior value `old_state = c.state` (`Ok(s) | Err(s) => s`); then

- `old_state = INITIALIZING` (1): spin until the state leaves
  `INITIALIZING`, then `Err(DataInitialized)` — sequentially `spins`;
- `old_state = INITIALIZED` (2): `Err(DataInitialized)` immediately, the
  failed compare-exchange wrote nothing, so the cell is unchanged;
- any other value (the `_` arm; the successful exchange from
  `UNINITIALIZED`): the slot is written with `Some(make_data())` and the
  state is stored as `INITIALIZED` (the transient `INITIALIZING` value held
  between the exchange and this store is not visible at the sequential
  call boundary), then `Ok(())`. -/
def OnceInit.initInternal {T : Type} (c : OnceInit T) (makeData : Unit → T) :
    InitOutcome T :=
  match c.state with
  | 1 => InitOutcome.spins
  | 2 => InitOutcome.err OnceInitError.DataInitialized c
  | _ => InitOutcome.ok { state := INITIALIZED, data := some (makeData ()) }

/-- `OnceInit::init(data)`: `self.init_internal(|| data)`. -/
def OnceInit.init {T : Type} (c : OnceInit T) (data : T) : InitOutcome T :=
  OnceInit.initInternal c (fun _ => data)

/-- `Box::leak`: turns an owned value into a `'static` reference by a
permanent one-way ownership transfer; on values this is the identity. -/
def boxLeak {T : Type} (data : T) : T :=
  data

/-- `OnceInit::init_boxed(data)`: `self.init_internal(|| Box::leak(data))`.
The owned `Box<T>` is modelled by the value it holds. -/
def OnceInit.initBoxed {T : Type} (c : OnceInit T) (data : T) : InitOutcome T :=
  OnceInit.initInternal c (fun _ => boxLeak data)

/-- The `Default` impl for `OnceInit<T>` with `T: StaticDefault`:
`Self::new(T::static_default())`. -/
def OnceInit.defaultImpl {T : Type} (sd : Unit → T) : OnceInit T :=
  OnceInit.new (sd ())

/-- Sequential well-formedness of a cell at a public operation boundary:
the state is quiescent (`UNINITIALIZED` or `INITIALIZED`; the transient
`INITIALIZING` exists only inside an in-flight `init_internal`) and the
slot is non-empty exactly when the state is `INITIALIZED`. -/
def SeqInv {T : Type} (c : OnceInit T) : Prop :=
  (c.state = UNINITIALIZED ∨ c.state = INITIALIZED) ∧
    (c.data.isSome ↔ c.state = INITIALIZED)

/-- Program counter of one thread executing `init_internal` in the
concurrent layer, at the granularity of the source's atomic accesses:

- `start`: about to perform the compare-exchange;
- `write`: won the exchange (prior state `UNINITIALIZED`), about to write
  the slot;
- `publish`: slot written, about to store `INITIALIZED`;
- `spin`: the exchange observed `INITIALIZING`; looping until the state
  leaves `INITIALIZING`;
- `doneOk`: returned `Ok(())`;
- `doneErr`: returned `Err(DataInitialized)`. -/
inductive ThreadPC where
  | start
  | write
  | publish
  | spin
  | doneOk
  | doneErr
deriving DecidableEq, Repr

/-- A configuration of `n` threads racing `init_internal` on one shared
cell. -/
structure Config (n : Nat) (T : Type) where
  cell : OnceInit T
  pcs : Fin n → ThreadPC

/-- The initial configuration: a fresh cell from `uninit` and every thread
about to perform its compare-exchange. -/
def initConfig (n : Nat) (T : Type) : Config n T :=
  { cell := OnceInit.uninit T, pcs := fun _ => ThreadPC.start }

/-- One interleaved atomic step of the race: thread `i` performs the next
atomic access of `init_internal(|| vals i)`.  Each constructor corresponds
to one line of the source:

- `casWin`: the compare-exchange succeeds (`state` was `UNINITIALIZED`),
  atomically setting `state := INITIALIZING`;
- `casSeeInitializing`: the exchange fails having observed `INITIALIZING`;
  the thread enters the spin loop;
- `casSeeInitialized`: the exchange fails having observed `INITIALIZED`;
  the thread returns `Err(DataInitialized)` immediately;
- `writeData`: the winner writes `Some(vals i)` into the slot;
- `publish`: the winner stores `state := INITIALIZED` (publishing the slot
  write) and returns `Ok(())`;
- `spinExit`: a spinning thread loads a state value other than
  `INITIALIZING`, leaves the loop and returns `Err(DataInitialized)`. -/
inductive Step {n : Nat} {T : Type} (vals : Fin n → T) :
    Config n T → Config n T → Prop where
  | casWin (i : Fin n) (c : Config n T) :
      c.pcs i = ThreadPC.start → c.cell.state = UNINITIALIZED →
      Step vals c
        { cell := { state := INITIALIZING, data := c.cell.data },
          pcs := Function.update c.pcs i ThreadPC.write }
  | casSeeInitializing (i : Fin n) (c : Config n T) :
      c.pcs i = ThreadPC.start → c.cell.state = INITIALIZING →
      Step vals c
        { cell := c.cell, pcs := Function.update c.pcs i ThreadPC.spin }
  | casSeeInitialized (i : Fin n) (c : Config n T) :
      c.pcs i = ThreadPC.start → c.cell.state = INITIALIZED →
      Step vals c
        { cell := c.cell, pcs := Function.update c.pcs i ThreadPC.doneErr }
  | writeData (i : Fin n) (c : Config n T) :
      c.pcs i = ThreadPC.write →
      Step vals c
        { cell := { state := c.cell.state, data := some (vals i) },
          pcs := Function.update c.pcs i ThreadPC.publish }
  | publish (i : Fin n) (c : Config n T) :
      c.pcs i = ThreadPC.publish →
      Step vals c
        { cell := { state := INITIALIZED, data := c.cell.data },
          pcs := Function.update c.pcs i ThreadPC.doneOk }
  | spinExit (i : Fin n) (c : Config n T) :
      c.pcs i = ThreadPC.spin → c.cell.state ≠ INITIALIZING →
      Step vals c
        { cell := c.cell, pcs := Function.update c.pcs i ThreadPC.doneErr }

/-- Configurations reachable from the fresh initial configuration by
interleaved steps. -/
inductive Reachable {n : Nat} {T : Type} (vals : Fin n → T) :
    Config n T → Prop where
  | refl : Reachable vals (initConfig n T)
  | tail {c c' : Config n T} :
      Reachable vals c → Step vals c c' → Reachable vals c'

/-- Phase A of the race invariant: nothing has happened yet — state
`UNINITIALIZED`, empty slot, every thread at its compare-exchange. -/
def PhaseA {n : Nat} {T : Type} (c : Config n T) : Prop :=
  c.cell.state = UNINITIALIZED ∧ c.cell.data = none ∧
    ∀ i, c.pcs i = ThreadPC.start

/-- Phase B of the race invariant: exactly one winner `w` holds the
transient `INITIALIZING` state; the slot is empty until the winner's slot
write and from then on holds the winner's value; every other thread is
still at its compare-exchange or spinning. -/
def PhaseB {n : Nat} {T : Type} (vals : Fin n → T) (c : Config n T) : Prop :=
  c.cell.state = INITIALIZING ∧
    ∃ w, ((c.pcs w = ThreadPC.write ∧ c.cell.data = none) ∨
          (c.pcs w = ThreadPC.publish ∧ c.cell.data = some (vals w))) ∧
      ∀ i, i ≠ w → (c.pcs i = ThreadPC.start ∨ c.pcs i = ThreadPC.spin)

/-- Phase C of the race invariant: the winner `w` has published — state
`INITIALIZED`, slot holding the winner's value, the winner returned
`Ok(())`, every other thread at its compare-exchange, spinning, or
returned `Err(DataInitialized)`. -/
def PhaseC {n : Nat} {T : Type} (vals : Fin n → T) (c : Config n T) : Prop :=
  c.cell.state = INITIALIZED ∧
    ∃ w, c.pcs w = ThreadPC.doneOk ∧ c.cell.data = some (vals w) ∧
      ∀ i, i ≠ w → (c.pcs i = ThreadPC.start ∨ c.pcs i = ThreadPC.spin ∨
        c.pcs i = ThreadPC.doneErr)

/-- The race invariant: every reachable configuration is in exactly one of
the three phases. -/
def RaceInv {n : Nat} {T : Type} (vals : Fin n → T) (c : Config n T) : Prop :=
  PhaseA c ∨ PhaseB vals c ∨ PhaseC vals c

/-- All threads of the race have returned. -/
def AllDone {n : Nat} {T : Type} (c : Config n T) : Prop :=
  ∀ i, c.pcs i = ThreadPC.doneOk ∨ c.pcs i = ThreadPC.doneErr

/-- A concrete two-thread race used to exercise the concurrent layer:
thread 0 races `init_internal(|| 3)`, thread 1 races `init_internal(|| 4)`. -/
def raceDemoVals : Fin 2 → Nat :=
  fun i => if i = 0 then 3 else 4

/-- The fresh initial configuration of the demonstration race. -/
def raceDemoC0 : Config 2 Nat :=
  initConfig 2 Nat

/-- After thread 0 wins the compare-exchange. -/
def raceDemoC1 : Config 2 Nat :=
  { cell := { state := INITIALIZING, data := raceDemoC0.cell.data },
    pcs := Function.update raceDemoC0.pcs 0 ThreadPC.write }

/-- After thread 0 writes its value into the slot. -/
def raceDemoC2 : Config 2 Nat :=
  { cell := { state := raceDemoC1.cell.state, data := some (raceDemoVals 0) },
    pcs := Function.update raceDemoC1.pcs 0 ThreadPC.publish }

/-- After thread 0 publishes (`state := INITIALIZED`) and returns `Ok(())`. -/
def raceDemoC3 : Config 2 Nat :=
  { cell := { state := INITIALIZED, data := raceDemoC2.cell.data },
    pcs := Function.update raceDemoC2.pcs 0 ThreadPC.doneOk }

/-- After thread 1's compare-exchange observes `INITIALIZED` and thread 1
returns `Err(DataInitialized)`: the final configuration of the race. -/
def raceDemoC4 : Config 2 Nat :=
  { cell := raceDemoC3.cell,
    pcs := Function.update raceDemoC3.pcs 1 ThreadPC.doneErr }

/-- Each interleaved atomic step of the race preserves the three-phase
invariant. -/
theorem step_preserves_raceInv {n : Nat} {T : Type} {vals : Fin n → T}
    {c c' : Config n T} (hInv : RaceInv vals c) (hs : Step vals c c') :
    RaceInv vals c' := by
  cases hs with
  | casWin i c hpc hst =>
    rcases hInv with ⟨_, hdata, hpcs⟩ | ⟨hst1, _⟩ | ⟨hst2, _⟩
    · refine Or.inr (Or.inl ⟨rfl, i, Or.inl ⟨?_, hdata⟩, fun j hj => ?_⟩)
      · exact Function.update_same i ThreadPC.write c.pcs
      · simp only [Function.update_noteq hj]
        exact Or.inl (hpcs j)
    · exact absurd (hst.symm.trans hst1) (by decide)
    · exact absurd (hst.symm.trans hst2) (by decide)
  | casSeeInitializing i c hpc hst =>
    rcases hInv with ⟨hst0, _, _⟩ | ⟨hst1, w, hw, hothers⟩ | ⟨hst2, _⟩
    · exact absurd (hst.symm.trans hst0) (by decide)
    · have hiw : i ≠ w := by
        intro he
        subst he
        rcases hw with ⟨hww, _⟩ | ⟨hwp, _⟩
        · exact absurd (hpc.symm.trans hww) (by decide)
        · exact absurd (hpc.symm.trans hwp) (by decide)
      refine Or.inr (Or.inl ⟨hst1, w, ?_, fun j hj => ?_⟩)
      · simp only [Function.update_noteq (Ne.symm hiw)]
        exact hw
      · by_cases hji : j = i
        · subst hji
          simp only [Function.update_same]
          exact Or.inr trivial
        · simp only [Function.update_noteq hji]
          exact hothers j hj
    · exact absurd (hst.symm.trans hst2) (by decide)
  | casSeeInitialized i c hpc hst =>
    rcases hInv with ⟨hst0, _, _⟩ | ⟨hst1, _⟩ | ⟨hst2, w, hw, hdata, hothers⟩
    · exact absurd (hst.symm.trans hst0) (by decide)
    · exact absurd (hst.symm.trans hst1) (by decide)
    · have hiw : i ≠ w := by
        intro he
        subst he
        exact absurd (hpc.symm.trans hw) (by decide)
      refine Or.inr (Or.inr ⟨hst2, w, ?_, hdata, fun j hj => ?_⟩)
      · simp only [Function.update_noteq (Ne.symm hiw)]
        exact hw
      · by_cases hji : j = i
        · subst hji
          simp only [Function.update_same]
          exact Or.inr (Or.inr trivial)
        · simp only [Function.update_noteq hji]
          exact hothers j hj
  | writeData i c hpc =>
    rcases hInv with ⟨_, _, hpcs⟩ | ⟨hst1, w, hw, hothers⟩ | ⟨hst2, w, hw, hdata, hothers⟩
    · exact absurd ((hpcs i).symm.trans hpc) (by decide)
    · have hiw : i = w := by
        by_contra hne
        rcases hothers i hne with h1 | h1 <;>
          exact absurd (h1.symm.trans hpc) (by decide)
      subst hiw
      rcases hw with ⟨hww, hdnone⟩ | ⟨hwp, _⟩
      · refine Or.inr (Or.inl ⟨hst1, i, Or.inr ⟨?_, rfl⟩, fun j hj => ?_⟩)
        · exact Function.update_same i ThreadPC.publish c.pcs
        · simp only [Function.update_noteq hj]
          exact hothers j hj
      · exact absurd (hwp.symm.trans hpc) (by decide)
    · by_cases hiw : i = w
      · subst hiw
        exact absurd (hpc.symm.trans hw) (by decide)
      · rcases hothers i hiw with h1 | h1 | h1 <;>
          exact absurd (h1.symm.trans hpc) (by decide)
  | publish i c hpc =>
    rcases hInv with ⟨_, _, hpcs⟩ | ⟨hst1, w, hw, hothers⟩ | ⟨hst2, w, hw, hdata, hothers⟩
    · exact absurd ((hpcs i).symm.trans hpc) (by decide)
    · have hiw : i = w := by
        by_contra hne
        rcases hothers i hne with h1 | h1 <;>
          exact absurd (h1.symm.trans hpc) (by decide)
      subst hiw
      rcases hw with ⟨hww, _⟩ | ⟨hwp, hdsome⟩
      · exact absurd (hww.symm.trans hpc) (by decide)
      · refine Or.inr (Or.inr ⟨rfl, i, ?_, hdsome, fun j hj => ?_⟩)
        · exact Function.update_same i ThreadPC.doneOk c.pcs
        · simp only [Function.update_noteq hj]
          rcases hothers j hj with h1 | h1
          · exact Or.inl h1
          · exact Or.inr (Or.inl h1)
    · by_cases hiw : i = w
      · subst hiw
        exact absurd (hpc.symm.trans hw) (by decide)
      · rcases hothers i hiw with h1 | h1 | h1 <;>
          exact absurd (h1.symm.trans hpc) (by decide)
  | spinExit i c hpc hne =>
    rcases hInv with ⟨_, _, hpcs⟩ | ⟨hst1, _⟩ | ⟨hst2, w, hw, hdata, hothers⟩
    · exact absurd ((hpcs i).symm.trans hpc) (by decide)
    · exact absurd hst1 hne
    · have hiw : i ≠ w := by
        intro he
        subst he
        exact absurd (hpc.symm.trans hw) (by decide)
      refine Or.inr (Or.inr ⟨hst2, w, ?_, hdata, fun j hj => ?_⟩)
      · simp only [Function.update_noteq (Ne.symm hiw)]
        exact hw
      · by_cases hji : j = i
        · subst hji
          simp only [Function.update_same]
          exact Or.inr (Or.inr trivial)
        · simp only [Function.update_noteq hji]
          exact hothers j hj

/-- Every configuration reachable from the fresh initial configuration
satisfies the three-phase invariant. -/
theorem reachable_raceInv {n : Nat} {T : Type} {vals : Fin n → T}
    {c : Config n T} (h : Reachable vals c) : RaceInv vals c := by
  induction h with
  | refl => exact Or.inl ⟨rfl, rfl, fun i => rfl⟩
  | tail _ hs ih => exact step_preserves_raceInv ih hs

/-- Under the invariant, each step moves the atomic state forward along
`UNINITIALIZED → INITIALIZING → INITIALIZED` or leaves it unchanged. -/
theorem step_state_monotone {n : Nat} {T : Type} {vals : Fin n → T}
    {c c' : Config n T} (hInv : RaceInv vals c) (hs : Step vals c c') :
    c'.cell.state = c.cell.state ∨
      (c.cell.state = UNINITIALIZED ∧ c'.cell.state = INITIALIZING) ∨
      (c.cell.state = INITIALIZING ∧ c'.cell.state = INITIALIZED) := by
  cases hs with
  | casWin i c hpc hst => exact Or.inr (Or.inl ⟨hst, rfl⟩)
  | casSeeInitializing i c hpc hst => exact Or.inl rfl
  | casSeeInitialized i c hpc hst => exact Or.inl rfl
  | writeData i c hpc => exact Or.inl rfl
  | publish i c hpc =>
    rcases hInv with ⟨_, _, hpcs⟩ | ⟨hst1, _⟩ | ⟨_, w, hw, _, hothers⟩
    · exact absurd ((hpcs i).symm.trans hpc) (by decide)
    · exact Or.inr (Or.inr ⟨hst1, rfl⟩)
    · by_cases hiw : i = w
      · subst hiw
        exact absurd (hpc.symm.trans hw) (by decide)
      · rcases hothers i hiw with h1 | h1 | h1 <;>
          exact absurd (h1.symm.trans hpc) (by decide)
  | spinExit i c hpc hne => exact Or.inl rfl

/-- Under the invariant, at any point where the state is not the transient
`INITIALIZING`, the slot is non-empty exactly when the state is
`INITIALIZED`. -/
theorem raceInv_boundary {n : Nat} {T : Type} {vals : Fin n → T}
    {c : Config n T} (hInv : RaceInv vals c)
    (hq : c.cell.state ≠ INITIALIZING) :
    (c.cell.data.isSome ↔ c.cell.state = INITIALIZED) := by
  rcases hInv with ⟨hst, hdata, _⟩ | ⟨hst, _⟩ | ⟨hst, w, _, hdata, _⟩
  · rw [hst, hdata]
    simp [UNINITIALIZED, INITIALIZED]
  · exact absurd hst hq
  · rw [hst, hdata]
    simp

/-- Evaluation of `get` on an initialized cell holding `d`. -/
theorem get_of_initialized {T : Type} (c : OnceInit T) (d : T)
    (hst : c.state = INITIALIZED) (hd : c.data = some d) :
    OnceInit.get c = (GetOutcome.ok d, c) := by
  obtain ⟨s, dd⟩ := c
  simp only at hst hd
  subst hst
  subst hd
  rfl

/-- Claim C1 (refuted by the source — the claim matches the specified
intent, the code does not): when the first load in `state()` observes
`INITIALIZING`, the source spins until the in-flight initialization
resolves — by monotonicity of the state machine the post-spin state is
necessarily `INITIALIZED` — but then returns
`OnceInitState::UNINITIALIZED`, not `OnceInitState::INITIALIZED` as the
claim states; so `UNINITIALIZED` is reported even though initialization
had already begun (and completed) at the moment of the query. -/
theorem state_query_after_spin_misreports :
    stateQueryObserved INITIALIZING INITIALIZED =
      some OnceInitState.UNINITIALIZED ∧
    stateQueryObserved INITIALIZING INITIALIZED ≠
      some OnceInitState.INITIALIZED := by
  exact ⟨rfl, by decide⟩

/-- Claim C2: starting from a fresh cell produced by `uninit` and given two
distinct values `A ≠ B`, the sequence get; init(A); init(B); get yields:
`Err(DataUninitialized)` from the first `get`, success from `init(A)`,
`Err(DataInitialized)` from `init(B)` with the cell left unchanged, and
`Ok(A)` from the final `get`. -/
theorem fresh_cell_write_once_scenario {T : Type} (A B : T) (hAB : A ≠ B) :
    (OnceInit.get (OnceInit.uninit T)).1 =
      GetOutcome.err OnceInitError.DataUninitialized ∧
    ∃ c1 : OnceInit T,
      OnceInit.init ((OnceInit.get (OnceInit.uninit T)).2) A =
        InitOutcome.ok c1 ∧
      OnceInit.init c1 B = InitOutcome.err OnceInitError.DataInitialized c1 ∧
      (OnceInit.get c1).1 = GetOutcome.ok A := by
  exact ⟨rfl, { state := INITIALIZED, data := some A }, rfl, rfl, rfl⟩

/-- Witness for C2 at the concrete values A = 1, B = 2 over `Nat`. -/
theorem fresh_cell_write_once_scenario_witness :
    (1 : Nat) ≠ 2 ∧
    ((OnceInit.get (OnceInit.uninit Nat)).1 =
      GetOutcome.err OnceInitError.DataUninitialized ∧
    ∃ c1 : OnceInit Nat,
      OnceInit.init ((OnceInit.get (OnceInit.uninit Nat)).2) 1 =
        InitOutcome.ok c1 ∧
      OnceInit.init c1 2 = InitOutcome.err OnceInitError.DataInitialized c1 ∧
      (OnceInit.get c1).1 = GetOutcome.ok 1) :=
  ⟨by decide, fresh_cell_write_once_scenario 1 2 (by decide)⟩

/-- Claim C3: at most one write call ever succeeds: once `init_internal`
returns `Ok(())` leaving the cell as `c'`, every subsequent write attempt —
any further `init_internal` call, hence both `init` and `init_boxed` —
fails with `Err(DataInitialized)` and returns the cell unchanged (same
state, same stored reference), so the failing caller's value is never
stored. -/
theorem write_once_after_success {T : Type} (c c' : OnceInit T)
    (f : Unit → T) (hok : OnceInit.initInternal c f = InitOutcome.ok c') :
    c'.state = INITIALIZED ∧
    (∀ g : Unit → T,
      OnceInit.initInternal c' g =
        InitOutcome.err OnceInitError.DataInitialized c') ∧
    (∀ v : T,
      OnceInit.init c' v = InitOutcome.err OnceInitError.DataInitialized c') ∧
    (∀ v : T,
      OnceInit.initBoxed c' v =
        InitOutcome.err OnceInitError.DataInitialized c') := by
  unfold OnceInit.initInternal at hok
  split at hok
  · cases hok
  · cases hok
  · injection hok with h
    subst h
    exact ⟨rfl, fun g => rfl, fun v => rfl, fun v => rfl⟩

/-- Witness for C3: a successful write of 5 into a fresh cell, after which
writes of 6 fail and leave the cell unchanged. -/
theorem write_once_after_success_witness :
    OnceInit.initInternal (OnceInit.uninit Nat) (fun _ => 5) =
      InitOutcome.ok { state := INITIALIZED, data := some 5 } ∧
    (({ state := INITIALIZED, data := some 5 } : OnceInit Nat).state =
        INITIALIZED ∧
      (∀ g : Unit → Nat,
        OnceInit.initInternal { state := INITIALIZED, data := some 5 } g =
          InitOutcome.err OnceInitError.DataInitialized
            { state := INITIALIZED, data := some 5 }) ∧
      (∀ v : Nat,
        OnceInit.init { state := INITIALIZED, data := some 5 } v =
          InitOutcome.err OnceInitError.DataInitialized
            { state := INITIALIZED, data := some 5 }) ∧
      (∀ v : Nat,
        OnceInit.initBoxed { state := INITIALIZED, data := some 5 } v =
          InitOutcome.err OnceInitError.DataInitialized
            { state := INITIALIZED, data := some 5 })) :=
  ⟨rfl, write_once_after_success (OnceInit.uninit Nat) _ (fun _ => 5) rfl⟩

/-- Claim C4: every interleaved atomic step of the initialization race
preserves the cell invariants: the phase invariant `RaceInv` is preserved;
the atomic state only ever moves forward along
`UNINITIALIZED → INITIALIZING → INITIALIZED`, never reversing and never
changing again once `INITIALIZED`; and at every point where the state is
not the transient `INITIALIZING` (in particular at every public-operation
boundary) the slot is non-empty exactly when the state is `INITIALIZED`. -/
theorem race_invariants_preserved {n : Nat} {T : Type} {vals : Fin n → T}
    {c c' : Config n T} (hInv : RaceInv vals c) (hs : Step vals c c') :
    RaceInv vals c' ∧
      (c'.cell.state = c.cell.state ∨
        (c.cell.state = UNINITIALIZED ∧ c'.cell.state = INITIALIZING) ∨
        (c.cell.state = INITIALIZING ∧ c'.cell.state = INITIALIZED)) ∧
      (c.cell.state = INITIALIZED → c'.cell.state = INITIALIZED) ∧
      (c'.cell.state ≠ INITIALIZING →
        (c'.cell.data.isSome ↔ c'.cell.state = INITIALIZED)) := by
  refine ⟨step_preserves_raceInv hInv hs, step_state_monotone hInv hs, ?_,
    raceInv_boundary (step_preserves_raceInv hInv hs)⟩
  intro h2
  rcases step_state_monotone hInv hs with h | ⟨h0, _⟩ | ⟨h1, _⟩
  · rw [h, h2]
  · exact absurd (h2.symm.trans h0) (by decide)
  · exact absurd (h2.symm.trans h1) (by decide)

/-- Witness for C4: the winning compare-exchange step of the two-thread
demonstration race, taken from the fresh initial configuration. -/
theorem race_invariants_preserved_witness :
    RaceInv raceDemoVals raceDemoC0 ∧
    Step raceDemoVals raceDemoC0 raceDemoC1 ∧
    (RaceInv raceDemoVals raceDemoC1 ∧
      (raceDemoC1.cell.state = raceDemoC0.cell.state ∨
        (raceDemoC0.cell.state = UNINITIALIZED ∧
          raceDemoC1.cell.state = INITIALIZING) ∨
        (raceDemoC0.cell.state = INITIALIZING ∧
          raceDemoC1.cell.state = INITIALIZED)) ∧
      (raceDemoC0.cell.state = INITIALIZED →
        raceDemoC1.cell.state = INITIALIZED) ∧
      (raceDemoC1.cell.state ≠ INITIALIZING →
        (raceDemoC1.cell.data.isSome ↔
          raceDemoC1.cell.state = INITIALIZED))) :=
  ⟨Or.inl ⟨rfl, rfl, fun _ => rfl⟩, Step.casWin 0 raceDemoC0 rfl rfl,
    race_invariants_preserved (Or.inl ⟨rfl, rfl, fun _ => rfl⟩)
      (Step.casWin 0 raceDemoC0 rfl rfl)⟩

/-- Claim C5: for `n ≥ 1` threads racing write calls with pairwise
distinct values on the same fresh cell, in every reachable configuration
in which all threads have returned, exactly one thread has returned
`Ok(())`, the other `n − 1` threads have returned `Err(DataInitialized)`,
the cell holds the winning thread's value, and a subsequent `get` on the
shared cell — by any thread, the losers included — returns that single
winning value. -/
theorem race_exactly_one_winner {n : Nat} {T : Type} (vals : Fin n → T)
    (hn : 0 < n) (hdist : ∀ i j : Fin n, i ≠ j → vals i ≠ vals j)
    {c : Config n T} (hr : Reachable vals c) (hdone : AllDone c) :
    ∃ w : Fin n, c.pcs w = ThreadPC.doneOk ∧
      (∀ i, i ≠ w → c.pcs i = ThreadPC.doneErr) ∧
      c.cell.state = INITIALIZED ∧ c.cell.data = some (vals w) ∧
      (OnceInit.get c.cell).1 = GetOutcome.ok (vals w) := by
  rcases reachable_raceInv hr with ⟨_, _, hpcs⟩ | ⟨_, w, hw, _⟩ |
    ⟨hst, w, hw, hdata, hothers⟩
  · rcases hdone ⟨0, hn⟩ with h | h <;>
      exact absurd ((hpcs ⟨0, hn⟩).symm.trans h) (by decide)
  · rcases hw with ⟨hw1, _⟩ | ⟨hw1, _⟩ <;> rcases hdone w with h | h <;>
      exact absurd (hw1.symm.trans h) (by decide)
  · refine ⟨w, hw, fun i hi => ?_, hst, hdata, ?_⟩
    · rcases hothers i hi with h1 | h1 | h1
      · rcases hdone i with h | h <;>
          exact absurd (h1.symm.trans h) (by decide)
      · rcases hdone i with h | h <;>
          exact absurd (h1.symm.trans h) (by decide)
      · exact h1
    · rw [get_of_initialized c.cell (vals w) hst hdata]

/-- Witness for C5: the two-thread demonstration race run to completion —
thread 0 wins with value 3, thread 1 loses, and `get` on the shared cell
returns the winning value. -/
theorem race_exactly_one_winner_witness :
    ∃ w : Fin 2, raceDemoC4.pcs w = ThreadPC.doneOk ∧
      (∀ i, i ≠ w → raceDemoC4.pcs i = ThreadPC.doneErr) ∧
      raceDemoC4.cell.state = INITIALIZED ∧
      raceDemoC4.cell.data = some (raceDemoVals w) ∧
      (OnceInit.get raceDemoC4.cell).1 = GetOutcome.ok (raceDemoVals w) := by
  have h1 : Step raceDemoVals raceDemoC0 raceDemoC1 :=
    Step.casWin 0 raceDemoC0 rfl rfl
  have h2 : Step raceDemoVals raceDemoC1 raceDemoC2 :=
    Step.writeData 0 raceDemoC1 (by decide)
  have h3 : Step raceDemoVals raceDemoC2 raceDemoC3 :=
    Step.publish 0 raceDemoC2 (by decide)
  have h4 : Step raceDemoVals raceDemoC3 raceDemoC4 :=
    Step.casSeeInitialized 1 raceDemoC3 (by decide) rfl
  have hr : Reachable raceDemoVals raceDemoC4 :=
    Reachable.tail (Reachable.tail (Reachable.tail
      (Reachable.tail Reachable.refl h1) h2) h3) h4
  exact race_exactly_one_winner raceDemoVals (by decide) (by decide) hr
    (by unfold AllDone; decide)

/-- Claim C6: for a payload type providing the `StaticDefault` capability
(modelled by the fallback provider `sd`), `get_or_default` on an
uninitialized cell does not fail: it returns the fallback `sd ()`, a
repeated call returns the same fallback value, and after a later
successful write of `v` it returns `v` instead. -/
theorem get_or_default_fallback_then_value {T : Type} (sd : Unit → T)
    (c : OnceInit T) (h : c.state = UNINITIALIZED) :
    (OnceInit.getOrDefault c sd).1 = GetOutcome.ok (sd ()) ∧
    (OnceInit.getOrDefault ((OnceInit.getOrDefault c sd).2) sd).1 =
      GetOutcome.ok (sd ()) ∧
    (∀ (v : T) (c' : OnceInit T), OnceInit.init c v = InitOutcome.ok c' →
      (OnceInit.getOrDefault c' sd).1 = GetOutcome.ok v) := by
  obtain ⟨s, d⟩ := c
  simp only [UNINITIALIZED] at h
  subst h
  refine ⟨rfl, rfl, ?_⟩
  intro v c' hok
  have h2 : InitOutcome.ok { state := INITIALIZED, data := some v } =
      InitOutcome.ok c' := hok
  injection h2 with h3
  subst h3
  rfl

/-- Witness for C6: an uninitialized `Nat` cell with fallback provider
returning 9. -/
theorem get_or_default_fallback_then_value_witness :
    (OnceInit.uninit Nat).state = UNINITIALIZED ∧
    ((OnceInit.getOrDefault (OnceInit.uninit Nat) (fun _ => 9)).1 =
      GetOutcome.ok 9 ∧
    (OnceInit.getOrDefault
        ((OnceInit.getOrDefault (OnceInit.uninit Nat) (fun _ => 9)).2)
        (fun _ => 9)).1 = GetOutcome.ok 9 ∧
    (∀ (v : Nat) (c' : OnceInit Nat),
      OnceInit.init (OnceInit.uninit Nat) v = InitOutcome.ok c' →
      (OnceInit.getOrDefault c' (fun _ => 9)).1 = GetOutcome.ok v)) :=
  ⟨rfl, get_or_default_fallback_then_value (fun _ => 9)
    (OnceInit.uninit Nat) rfl⟩

/-- Claim C7: `get_or_default` performs no store: on an uninitialized cell
the cell after the call is unchanged — still state `UNINITIALIZED` with an
empty slot — and a repeated call on the resulting cell re-derives the
fallback by invoking the provider `sd` again rather than reading a cached
value from the slot. -/
theorem get_or_default_no_store {T : Type} (sd : Unit → T) (c : OnceInit T)
    (hst : c.state = UNINITIALIZED) (hd : c.data = none) :
    (OnceInit.getOrDefault c sd).2 = c ∧
    ((OnceInit.getOrDefault c sd).2).state = UNINITIALIZED ∧
    ((OnceInit.getOrDefault c sd).2).data = none ∧
    (OnceInit.getOrDefault ((OnceInit.getOrDefault c sd).2) sd).1 =
      GetOutcome.ok (sd ()) := by
  obtain ⟨s, d⟩ := c
  simp only [UNINITIALIZED] at hst
  simp only at hd
  subst hst
  subst hd
  exact ⟨rfl, rfl, rfl, rfl⟩

/-- Witness for C7: the fresh uninitialized `Nat` cell with fallback
provider returning 9. -/
theorem get_or_default_no_store_witness :
    (OnceInit.uninit Nat).state = UNINITIALIZED ∧
    (OnceInit.uninit Nat).data = none ∧
    ((OnceInit.getOrDefault (OnceInit.uninit Nat) (fun _ => 9)).2 =
      OnceInit.uninit Nat ∧
    ((OnceInit.getOrDefault (OnceInit.uninit Nat) (fun _ => 9)).2).state =
      UNINITIALIZED ∧
    ((OnceInit.getOrDefault (OnceInit.uninit Nat) (fun _ => 9)).2).data =
      none ∧
    (OnceInit.getOrDefault
        ((OnceInit.getOrDefault (OnceInit.uninit Nat) (fun _ => 9)).2)
        (fun _ => 9)).1 = GetOutcome.ok 9) :=
  ⟨rfl, rfl, get_or_default_no_store (fun _ => 9) (OnceInit.uninit Nat)
    rfl rfl⟩

/-- Claim C8: on a cell in the `UNINITIALIZED` state, `get` returns
`Err(DataUninitialized)` — a plain error return, neither the spin-loop
branch nor the undefined-behaviour unwrap, so no blocking and nothing that
can trap — and `state()` reports `OnceInitState::UNINITIALIZED`; both
operations leave the cell unchanged. -/
theorem uninitialized_get_and_state {T : Type} (c : OnceInit T)
    (h : c.state = UNINITIALIZED) :
    (OnceInit.get c).1 = GetOutcome.err OnceInitError.DataUninitialized ∧
    (OnceInit.get c).2 = c ∧
    (OnceInit.stateQuery c).1 =
      StateQueryOutcome.reports OnceInitState.UNINITIALIZED ∧
    (OnceInit.stateQuery c).2 = c := by
  obtain ⟨s, d⟩ := c
  simp only [UNINITIALIZED] at h
  subst h
  exact ⟨rfl, rfl, rfl, rfl⟩

/-- Witness for C8: the fresh uninitialized `Nat` cell. -/
theorem uninitialized_get_and_state_witness :
    (OnceInit.uninit Nat).state = UNINITIALIZED ∧
    ((OnceInit.get (OnceInit.uninit Nat)).1 =
      GetOutcome.err OnceInitError.DataUninitialized ∧
    (OnceInit.get (OnceInit.uninit Nat)).2 = OnceInit.uninit Nat ∧
    (OnceInit.stateQuery (OnceInit.uninit Nat)).1 =
      StateQueryOutcome.reports OnceInitState.UNINITIALIZED ∧
    (OnceInit.stateQuery (OnceInit.uninit Nat)).2 = OnceInit.uninit Nat) :=
  ⟨rfl, uninitialized_get_and_state (OnceInit.uninit Nat) rfl⟩

/-- Claim C9: under the cell invariant, being in state `INITIALIZED` is
equivalent to the slot being non-empty, and under that precondition
`get_unchecked` returns the stored reference — its unchecked unwrap never
reads an empty slot; only on a cell whose initialization has not completed
does the unwrap read the empty slot (the undefined-behaviour case,
modelled as the `none` result). -/
theorem get_unchecked_contract {T : Type} (c : OnceInit T)
    (hInv : SeqInv c) :
    (c.state = INITIALIZED ↔ c.data.isSome) ∧
    (c.state = INITIALIZED →
      ∃ d, c.data = some d ∧ OnceInit.getUnchecked c = some d) ∧
    (c.state ≠ INITIALIZED → OnceInit.getUnchecked c = none) := by
  obtain ⟨_, hiff⟩ := hInv
  refine ⟨hiff.symm, ?_, ?_⟩
  · intro h
    obtain ⟨d, hd⟩ := Option.isSome_iff_exists.mp (hiff.mpr h)
    exact ⟨d, hd, hd⟩
  · intro h
    exact Option.not_isSome_iff_eq_none.mp (fun hs => h (hiff.mp hs))

/-- Witness for C9: the initialized cell `new 3`. -/
theorem get_unchecked_contract_witness :
    SeqInv (OnceInit.new (3 : Nat)) ∧
    (((OnceInit.new (3 : Nat)).state = INITIALIZED ↔
      (OnceInit.new (3 : Nat)).data.isSome) ∧
    ((OnceInit.new (3 : Nat)).state = INITIALIZED →
      ∃ d, (OnceInit.new (3 : Nat)).data = some d ∧
        OnceInit.getUnchecked (OnceInit.new (3 : Nat)) = some d) ∧
    ((OnceInit.new (3 : Nat)).state ≠ INITIALIZED →
      OnceInit.getUnchecked (OnceInit.new (3 : Nat)) = none)) :=
  ⟨⟨Or.inr rfl, by decide⟩,
    get_unchecked_contract (OnceInit.new 3) ⟨Or.inr rfl, by decide⟩⟩

/-- Claim C10: `new(d)` produces a cell already in the `INITIALIZED` state
whose `get` returns `d` and on which every subsequent write call (`init`
or `init_boxed`) fails with `Err(DataInitialized)`, leaving the cell
unchanged; and the `Default` impl for `StaticDefault` payload types
(`Self::new(T::static_default())`) likewise yields an already-initialized
cell holding the capability's fallback value. -/
theorem new_already_initialized {T : Type} (d : T) :
    (OnceInit.new d).state = INITIALIZED ∧
    (OnceInit.get (OnceInit.new d)).1 = GetOutcome.ok d ∧
    (∀ v : T, OnceInit.init (OnceInit.new d) v =
      InitOutcome.err OnceInitError.DataInitialized (OnceInit.new d)) ∧
    (∀ v : T, OnceInit.initBoxed (OnceInit.new d) v =
      InitOutcome.err OnceInitError.DataInitialized (OnceInit.new d)) ∧
    (∀ sd : Unit → T, (OnceInit.defaultImpl sd).state = INITIALIZED ∧
      (OnceInit.get (OnceInit.defaultImpl sd)).1 = GetOutcome.ok (sd ())) :=
  ⟨rfl, rfl, fun _ => rfl, fun _ => rfl, fun _ => ⟨rfl, rfl⟩⟩
